import Mathlib

/-!
Verification of the `common` repository (Go): a structured-logging helper
(`logutil`), a JSON HTTP response formatter (`response`), and a filesystem
utility (`utils`).

The Go code is shallowly embedded:
* a logrus field set (`logrus.Fields`, i.e. `map[string]interface{}`) is an
  association list `Fields` whose lookup takes the first matching key and
  whose insertion replaces the first matching entry (Go maps never hold
  duplicate keys, so this is the map semantics);
* an emitted log line is a `Record` (message, severity, fields);
* the process-wide globals `debugMode` and `loggedEvents` are passed
  explicitly to every operation that can see them;
* `time.Now().UTC().Format(time.RFC3339)` is a `now : String` argument;
* a Go `error` value is `Option String` (its message; `none` is a nil
  interface) and a Go runtime panic is `Except.error ()`;
* the de-duplicated loggers are a step function `runOnce` on the shared
  `loggedEvents` state, with `runOps` iterating a call sequence.
-/

namespace Logutil

/-- A value stored in a `map[string]interface{}` field set.  Only strings and
integers occur in this development; the constructor split keeps distinct
dynamic values distinguishable. -/
inductive Val where
  | s : String → Val
  | n : Int → Val
deriving DecidableEq

/-- `logrus.Fields` / `map[string]interface{}`: an association list with
first-match lookup.  `Option Fields` models a possibly-nil map. -/
abbrev Fields := List (String × Val)

/-- Assignment `m[k] = v` on a Go map: replace the binding of `k` if present,
otherwise add it. -/
def insertField : Fields → String → Val → Fields
  | [], k, v => [(k, v)]
  | (k0, v0) :: rest, k, v =>
      if k0 = k then (k, v) :: rest else (k0, v0) :: insertField rest k v

/-- `mergeFields` (logutil.go:259-263): `for k, v := range additionalFields {
baseFields[k] = v }`.  A nil map (`none`) ranges over nothing. -/
def mergeFields (baseFields : Fields) (additionalFields : Option Fields) : Fields :=
  match additionalFields with
  | none => baseFields
  | some l => l.foldl (fun m p => insertField m p.1 p.2) baseFields

/-- `mergeFieldsNew` (logutil.go:266-272): guards on nil, then iterates the
map assigning `entry = entry.WithField(k, v)`.  logrus entries are immutable
— `WithField` returns a fresh entry and never mutates its receiver — and the
reassignment only rebinds the local parameter, so the caller's entry is left
unchanged and the additional fields are dropped.  The discarded chain of
`WithField` results is computed and then thrown away. -/
def mergeFieldsNew (baseFields : Fields) (additionalFields : Option Fields) : Fields :=
  match additionalFields with
  | none => baseFields
  | some l =>
      let discarded := l.foldl (fun m p => insertField m p.1 p.2) baseFields
      baseFields

/-- Severity of an emitted logrus line (`Init` sets level INFO, so both
`Info` and `Error` calls emit). -/
inductive LogLevel where
  | info
  | error
deriving DecidableEq

/-- One emitted log line: the message passed to `Info`/`Error`, its severity,
and the structured fields attached to the entry. -/
structure Record where
  msg : String
  level : LogLevel
  fields : Fields
deriving DecidableEq

/-- The `LogFields` struct (logutil.go:20-27). -/
structure LogFields where
  Event : String
  CorrelationID : String
  Timestamp : String
  Status : String
  Error : String
  Additional : Option Fields
deriving DecidableEq

end Logutil

namespace Logutil

theorem lookup_cons (k k1 : String) (v1 : Val) (rest : Fields) :
    List.lookup k ((k1, v1) :: rest) = if k = k1 then some v1 else List.lookup k rest := by
  by_cases h : k = k1
  · have hb : (k == k1) = true := beq_iff_eq.mpr h
    simp [List.lookup, hb, h]
  · have hb : (k == k1) = false := beq_eq_false_iff_ne.mpr h
    simp [List.lookup, hb, h]

theorem lookup_insertField (m : Fields) (k k0 : String) (v : Val) :
    List.lookup k0 (insertField m k v) = if k0 = k then some v else List.lookup k0 m := by
  induction m with
  | nil =>
      have hnil : insertField [] k v = [(k, v)] := rfl
      rw [hnil, lookup_cons]
  | cons p rest ih =>
      obtain ⟨k1, v1⟩ := p
      by_cases h1 : k1 = k
      · subst h1
        by_cases h0 : k0 = k1 <;> simp [insertField, lookup_cons, h0]
      · by_cases h0 : k0 = k1
        · have hk : ¬ k0 = k := fun hh => h1 (h0.symm.trans hh)
          simp [insertField, h1, lookup_cons, h0, hk]
        · simp [insertField, h1, lookup_cons, h0, ih]

theorem lookup_eq_none_of_not_mem (l : Fields) (k : String)
    (h : k ∉ l.map Prod.fst) : List.lookup k l = none := by
  induction l with
  | nil => simp [List.lookup]
  | cons p rest ih =>
      obtain ⟨k1, v1⟩ := p
      simp only [List.map_cons, List.mem_cons] at h
      push_neg at h
      simp [lookup_cons, h.1, ih h.2]

theorem lookup_of_mem_nodupKeys (l : Fields) (k : String) (v : Val)
    (hnd : (l.map Prod.fst).Nodup) (hm : (k, v) ∈ l) : List.lookup k l = some v := by
  induction l with
  | nil => cases hm
  | cons p rest ih =>
      obtain ⟨k1, v1⟩ := p
      simp only [List.map_cons, List.nodup_cons] at hnd
      rcases List.mem_cons.mp hm with h | h
      · cases h
        simp [lookup_cons]
      · have hk : ¬ k = k1 := by
          intro he
          subst he
          exact hnd.1 (List.mem_map.mpr ⟨(k, v), h, rfl⟩)
        simp [lookup_cons, hk, ih hnd.2 h]

theorem lookup_mergeFields (base add : Fields) (k : String)
    (hnd : (add.map Prod.fst).Nodup) :
    List.lookup k (mergeFields base (some add)) =
      (List.lookup k add).orElse (fun _ => List.lookup k base) := by
  induction add generalizing base with
  | nil => simp [mergeFields, List.lookup]
  | cons p rest ih =>
      obtain ⟨k1, v1⟩ := p
      simp only [List.map_cons, List.nodup_cons] at hnd
      have hstep : mergeFields base (some ((k1, v1) :: rest)) =
          mergeFields (insertField base k1 v1) (some rest) := rfl
      rw [hstep, ih _ hnd.2]
      by_cases h : k = k1
      · subst h
        have hnone : List.lookup k rest = none :=
          lookup_eq_none_of_not_mem rest k hnd.1
        simp [hnone, lookup_cons, lookup_insertField]
      · simp [lookup_cons, h, lookup_insertField]

theorem lookup_mergeFields_not_mem (base add : Fields) (k : String)
    (hk : k ∉ add.map Prod.fst) :
    List.lookup k (mergeFields base (some add)) = List.lookup k base := by
  induction add generalizing base with
  | nil => simp [mergeFields]
  | cons p rest ih =>
      obtain ⟨k1, v1⟩ := p
      simp only [List.map_cons, List.mem_cons] at hk
      push_neg at hk
      have hstep : mergeFields base (some ((k1, v1) :: rest)) =
          mergeFields (insertField base k1 v1) (some rest) := rfl
      rw [hstep, ih _ hk.2, lookup_insertField]
      simp [hk.1]

theorem mergeFieldsNew_eq_base (base : Fields) (add : Option Fields) :
    mergeFieldsNew base add = base := by
  cases add <;> rfl

/-- `LogRelationalStart` (logutil.go:49-65): nothing when `debugMode` is
false, otherwise one INFO record with base fields event / correlationID /
timestamp / status = "started" merged with the extra fields.  The global
`loggedEvents` is in scope in the Go function but never read. -/
def LogRelationalStart (debugMode : Bool) (loggedEvents : List String)
    (correlationID event now : String) (additionalFields : Option Fields) :
    Option Record :=
  if !debugMode then none
  else
    some ⟨"Event started", LogLevel.info,
      mergeFields
        [("event", Val.s event), ("correlationID", Val.s correlationID),
         ("timestamp", Val.s now), ("status", Val.s "started")]
        additionalFields⟩

/-- `LogRelationalEnd` (logutil.go:68-84): as `LogRelationalStart` with
status "completed" and message "Event completed". -/
def LogRelationalEnd (debugMode : Bool) (loggedEvents : List String)
    (correlationID event now : String) (additionalFields : Option Fields) :
    Option Record :=
  if !debugMode then none
  else
    some ⟨"Event completed", LogLevel.info,
      mergeFields
        [("event", Val.s event), ("correlationID", Val.s correlationID),
         ("timestamp", Val.s now), ("status", Val.s "completed")]
        additionalFields⟩

/-- `LogError` (logutil.go:87-98): reads neither `debugMode` nor
`loggedEvents`; builds fields including `error = err.Error()` and
`status = "error"` and emits at ERROR severity.  `err.Error()` on a nil
interface (`none`) is a Go runtime panic, modelled as `Except.error ()`. -/
def LogError (debugMode : Bool) (loggedEvents : List String)
    (correlationID event : String) (err : Option String) (now : String)
    (additionalFields : Option Fields) : Except Unit Record :=
  match err with
  | none => Except.error ()
  | some msg =>
      Except.ok ⟨"Error occurred", LogLevel.error,
        mergeFields
          [("event", Val.s event), ("correlationID", Val.s correlationID),
           ("timestamp", Val.s now), ("error", Val.s msg),
           ("status", Val.s "error")]
          additionalFields⟩

/-- `LogErrorNew` (logutil.go:190-207): the struct-based variant; the emitted
entry carries event / correlationID / timestamp / error / status.  The call
to `mergeFieldsNew` with the struct's `Additional` map adds nothing to the
emitted entry (see `mergeFieldsNew`).  As in `LogError`, `err.Error()` on
nil panics. -/
def LogErrorNew (debugMode : Bool) (loggedEvents : List String)
    (correlationID event : String) (err : Option String) (now : String)
    (f : LogFields) : Except Unit Record :=
  match err with
  | none => Except.error ()
  | some msg =>
      Except.ok ⟨"Error occurred", LogLevel.error,
        mergeFieldsNew
          [("event", Val.s event), ("correlationID", Val.s correlationID),
           ("timestamp", Val.s now), ("error", Val.s msg),
           ("status", Val.s "error")]
          f.Additional⟩

/-- One call to a de-duplicated logger, with its arguments and the timestamp
`time.Now()` would produce at that call. -/
inductive OnceOp where
  | logOnce : String → Option String → Option Fields → String → OnceOp
  | logSuccess : String → Option Fields → String → OnceOp
  | logOnceNew : String → Option String → LogFields → String → OnceOp
  | logSuccessNew : String → LogFields → String → OnceOp
deriving DecidableEq

/-- The `logKey` used by each once-only logger: the event name alone. -/
def opEvent : OnceOp → String
  | OnceOp.logOnce e _ _ _ => e
  | OnceOp.logSuccess e _ _ => e
  | OnceOp.logOnceNew e _ _ _ => e
  | OnceOp.logSuccessNew e _ _ => e

/-- Base fields of `LogOnce` (logutil.go:110-116): event and timestamp,
plus `error = err.Error()` when `err != nil`. -/
def onceBase (e now : String) (err : Option String) : Fields :=
  match err with
  | none => [("event", Val.s e), ("timestamp", Val.s now)]
  | some m => [("event", Val.s e), ("timestamp", Val.s now), ("error", Val.s m)]

/-- The record each once-only logger emits on its first call.  Note that
`LogOnceNew` (logutil.go:219-229) assigns `fields.Error = err.Error()` but
builds its entry from event and timestamp only, so the error message never
reaches the emitted record; likewise the `mergeFieldsNew` calls of
`LogOnceNew` and `LogSuccessNew` add nothing to the emitted entry, so their
records carry event and timestamp alone. -/
def onceRecord : OnceOp → Record
  | OnceOp.logOnce e err add now =>
      ⟨"Event logged once", LogLevel.info, mergeFields (onceBase e now err) add⟩
  | OnceOp.logSuccess e add now =>
      ⟨"Event logged successfully", LogLevel.info,
        mergeFields [("event", Val.s e), ("timestamp", Val.s now)] add⟩
  | OnceOp.logOnceNew e _ f now =>
      ⟨"Event logged once", LogLevel.info,
        mergeFieldsNew [("event", Val.s e), ("timestamp", Val.s now)] f.Additional⟩
  | OnceOp.logSuccessNew e f now =>
      ⟨"Event logged successfully", LogLevel.info,
        mergeFieldsNew [("event", Val.s e), ("timestamp", Val.s now)] f.Additional⟩

/-- The shared check-and-insert of all four once-only loggers
(logutil.go:101-141, 210-256): under the mutex, return with no emission when
the key is in `loggedEvents`, otherwise emit and mark the key.  The mutex
serialises calls, so a sequential step function is the exact semantics. -/
def runOnce (loggedEvents : List String) (op : OnceOp) :
    List String × Option Record :=
  if opEvent op ∈ loggedEvents then (loggedEvents, none)
  else (opEvent op :: loggedEvents, some (onceRecord op))

/-- Run a sequence of once-only calls, collecting each emitted record tagged
with the event name of the call that produced it. -/
def runOps : List String → List OnceOp → List String × List (String × Record)
  | s, [] => (s, [])
  | s, op :: rest =>
      let step := runOnce s op
      let restRun := runOps step.1 rest
      match step.2 with
      | none => restRun
      | some r0 => (restRun.1, (opEvent op, r0) :: restRun.2)

/-- Number of records in a run output emitted by calls with event `e`. -/
def countFor (e : String) (out : List (String × Record)) : Nat :=
  (out.filter (fun p => p.1 == e)).length

theorem runOnce_seen {s : List String} {op : OnceOp} (h : opEvent op ∈ s) :
    runOnce s op = (s, none) := by
  simp [runOnce, h]

theorem runOnce_unseen {s : List String} {op : OnceOp} (h : opEvent op ∉ s) :
    runOnce s op = (opEvent op :: s, some (onceRecord op)) := by
  simp [runOnce, h]

theorem mem_runOnce_fst {s : List String} {op : OnceOp} {x : String}
    (h : x ∈ s) : x ∈ (runOnce s op).1 := by
  by_cases hs : opEvent op ∈ s
  · simpa [runOnce_seen hs] using h
  · simp only [runOnce_unseen hs]
    exact List.mem_cons_of_mem _ h

theorem countFor_runOps_of_mem {e : String} {s : List String}
    (ops : List OnceOp) (h : e ∈ s) : countFor e (runOps s ops).2 = 0 := by
  induction ops generalizing s with
  | nil => simp [runOps, countFor]
  | cons op rest ih =>
      by_cases hop : opEvent op ∈ s
      · simp only [runOps, runOnce_seen hop]
        exact ih h
      · have hne : (opEvent op == e) = false :=
          beq_eq_false_iff_ne.mpr (fun hh => hop (hh ▸ h))
        have hmem : e ∈ opEvent op :: s := List.mem_cons_of_mem _ h
        simp only [runOps, runOnce_unseen hop]
        simp only [countFor, List.filter_cons, hne]
        exact ih hmem

theorem not_mem_runOps_fst {e : String} {s : List String} {ops : List OnceOp}
    (h : e ∉ s) (hops : ∀ op ∈ ops, opEvent op ≠ e) :
    e ∉ (runOps s ops).1 := by
  induction ops generalizing s with
  | nil => simpa [runOps] using h
  | cons op rest ih =>
      have hop := hops op (List.mem_cons_self op rest)
      have hrest : ∀ o ∈ rest, opEvent o ≠ e :=
        fun o ho => hops o (List.mem_cons_of_mem _ ho)
      by_cases hs : opEvent op ∈ s
      · simp only [runOps, runOnce_seen hs]
        exact ih h hrest
      · have hnotmem : e ∉ opEvent op :: s := by
          intro hm
          rcases List.mem_cons.mp hm with hm | hm
          · exact hop hm.symm
          · exact h hm
        simp only [runOps, runOnce_unseen hs]
        cases hr : (runOps (opEvent op :: s) rest).2 with
        | nil => simpa [hr] using ih hnotmem hrest
        | cons a l => simpa [hr] using ih hnotmem hrest

end Logutil

namespace Response

/-- `ErrResponse` (response package): JSON tags code / reason / message /
error_code, serialized by `encoding/json` in declaration order. -/
structure ErrResponse where
  Code : Int
  Reason : String
  Message : String
  ErrorCode : String
deriving DecidableEq

/-- One observable action on the `http.ResponseWriter`, in call order. -/
inductive WEvent where
  | setHeader : String → String → WEvent
  | writeHeader : Int → WEvent
  | write : String → WEvent
deriving DecidableEq

/-- JSON string escaping as `encoding/json` performs it, restricted to the
quote and backslash cases; the inputs in this development contain no control
or HTML-escaped characters. -/
def jsonEscapeChar (c : Char) : String :=
  if c = '"' then "\\\""
  else if c = '\\' then "\\\\"
  else String.singleton c

def jsonEscape (str : String) : String :=
  String.join (str.toList.map jsonEscapeChar)

def jsonStr (str : String) : String :=
  "\"" ++ jsonEscape str ++ "\""

/-- `encoding/json` serialization of an `ErrResponse` value: object braces,
fields in struct declaration order under their tags. -/
def encodeErrResponse (r : ErrResponse) : String :=
  "\x7b\"code\":" ++ toString r.Code ++
    ",\"reason\":" ++ jsonStr r.Reason ++
    ",\"message\":" ++ jsonStr r.Message ++
    ",\"error_code\":" ++ jsonStr r.ErrorCode ++ "\x7d"

/-- `RespondWithError` (response package): sets `Content-Type`, writes the
status code, then encodes `map\x7bstring: interface\x7d` with the single key
"error" holding the `ErrResponse`; `json.Encoder.Encode` appends a newline.
`err.Error()` on a nil interface panics, modelled as `Except.error ()`. -/
def RespondWithError (statusCode : Int) (message : String)
    (err : Option String) (traceID : String) : Except Unit (List WEvent) :=
  match err with
  | none => Except.error ()
  | some reason =>
      Except.ok
        [WEvent.setHeader "Content-Type" "application/json",
         WEvent.writeHeader statusCode,
         WEvent.write
           ("\x7b\"error\":" ++
             encodeErrResponse ⟨statusCode, reason, message, traceID⟩ ++
             "\x7d\n")]

end Response

namespace Utils

/-- `GetHomeDir` (utils/utils.go:8-15).  `os.Getwd` either succeeds with the
working directory or fails, returning the empty string aside an error; the
function prints a diagnostic on failure and returns `currentDir` either way —
its return type carries no error.  The second component collects the lines
printed by `fmt.Println`. -/
def GetHomeDir (getwd : Except Unit String) : String × List String :=
  match getwd with
  | Except.ok currentDir => (currentDir, [])
  | Except.error _ => ("", ["could not get home directory"])

end Utils

namespace Logutil

/-- Claim C1: any sequence of N ≥ 1 once-only calls (any mix of LogOnce,
LogSuccess, LogOnceNew, LogSuccessNew) with event `E`, starting from a state
that has not seen `E`, emits exactly one record for `E`; every call with an
already-seen event returns immediately with no state change and no emission;
and a seen event is never removed from the de-duplication set. -/
theorem onceLogger_idempotent (E : String) (s : List String) (ops : List OnceOp)
    (hall : ∀ op ∈ ops, opEvent op = E) (hne : ops ≠ []) (hs : E ∉ s) :
    countFor E (runOps s ops).2 = 1 ∧
    (∀ t op, opEvent op = E → E ∈ t → runOnce t op = (t, none)) ∧
    (∀ t op x, x ∈ t → x ∈ (runOnce t op).1) := by
  refine ⟨?_, ?_, ?_⟩
  · cases ops with
    | nil => exact absurd rfl hne
    | cons op rest =>
        have hopE : opEvent op = E := hall op (List.mem_cons_self _ _)
        have hop : opEvent op ∉ s := fun hm => hs (hopE ▸ hm)
        have hmem : E ∈ opEvent op :: s := by
          rw [hopE]
          exact List.mem_cons_self _ _
        have hzero : countFor E (runOps (opEvent op :: s) rest).2 = 0 :=
          countFor_runOps_of_mem rest hmem
        have hbeq : (opEvent op == E) = true := beq_iff_eq.mpr hopE
        simp only [runOps, runOnce_unseen hop]
        simp only [countFor, List.filter_cons, hbeq] at hzero ⊢
        simpa using hzero
  · intro t op hE ht
    exact runOnce_seen (hE ▸ ht)
  · intro t op x hx
    exact mem_runOnce_fst hx

/-- Witness for C1: two once-only calls with event "boot" (one LogSuccess,
one LogOnce) from the fresh state emit exactly one record. -/
theorem onceLogger_idempotent_witness :
    countFor "boot"
      (runOps []
        [OnceOp.logSuccess "boot" none "t1",
         OnceOp.logOnce "boot" (some "oops") none "t2"]).2 = 1 :=
  (onceLogger_idempotent "boot" []
      [OnceOp.logSuccess "boot" none "t1",
       OnceOp.logOnce "boot" (some "oops") none "t2"]
      (by decide) (by decide) (by decide)).1

/-- Claim C2 (code bug): with a nil `err`, `LogError` and `LogErrorNew` do
not fall back to an empty reason — `err.Error()` on the nil interface is a
runtime crash, so no record is emitted. -/
theorem logError_nil_err_crash :
    LogError true [] "cid" "E" none "t" none = Except.error () ∧
    LogErrorNew true [] "cid" "E" none "t" ⟨"", "", "", "", "", none⟩ =
      Except.error () :=
  ⟨rfl, rfl⟩

/-- Claim C3: with the debug flag false, LogRelationalStart and
LogRelationalEnd emit nothing; with it true, each emits exactly one INFO
record with status "started" / "completed", the current timestamp, and the
merged extra fields, independent of the de-duplication state. -/
theorem relational_debug_gated (led led2 : List String) (cid E now : String)
    (add : Fields) (hnd : (add.map Prod.fst).Nodup) :
    (LogRelationalStart false led cid E now (some add) = none ∧
     LogRelationalEnd false led cid E now (some add) = none) ∧
    (LogRelationalStart true led cid E now (some add) =
       LogRelationalStart true led2 cid E now (some add) ∧
     LogRelationalEnd true led cid E now (some add) =
       LogRelationalEnd true led2 cid E now (some add)) ∧
    (∃ r, LogRelationalStart true led cid E now (some add) = some r ∧
       r.level = LogLevel.info ∧
       ("status" ∉ add.map Prod.fst →
          List.lookup "status" r.fields = some (Val.s "started")) ∧
       ("timestamp" ∉ add.map Prod.fst →
          List.lookup "timestamp" r.fields = some (Val.s now)) ∧
       (∀ k v, (k, v) ∈ add → List.lookup k r.fields = some v)) ∧
    (∃ r, LogRelationalEnd true led cid E now (some add) = some r ∧
       r.level = LogLevel.info ∧
       ("status" ∉ add.map Prod.fst →
          List.lookup "status" r.fields = some (Val.s "completed")) ∧
       ("timestamp" ∉ add.map Prod.fst →
          List.lookup "timestamp" r.fields = some (Val.s now)) ∧
       (∀ k v, (k, v) ∈ add → List.lookup k r.fields = some v)) := by
  refine ⟨⟨rfl, rfl⟩, ⟨rfl, rfl⟩, ⟨_, rfl, rfl, ?_, ?_, ?_⟩, ⟨_, rfl, rfl, ?_, ?_, ?_⟩⟩
  · intro hst
    rw [lookup_mergeFields_not_mem _ _ _ hst]
    simp [lookup_cons]
  · intro hts
    rw [lookup_mergeFields_not_mem _ _ _ hts]
    simp [lookup_cons]
  · intro k v hkv
    rw [lookup_mergeFields _ _ _ hnd, lookup_of_mem_nodupKeys add k v hnd hkv]
    rfl
  · intro hst
    rw [lookup_mergeFields_not_mem _ _ _ hst]
    simp [lookup_cons]
  · intro hts
    rw [lookup_mergeFields_not_mem _ _ _ hts]
    simp [lookup_cons]
  · intro k v hkv
    rw [lookup_mergeFields _ _ _ hnd, lookup_of_mem_nodupKeys add k v hnd hkv]
    rfl

/-- Witness for C3: concrete instantiation, extra field "shard" = 3, debug
true, two different de-duplication states. -/
theorem relational_debug_gated_witness :
    LogRelationalStart false [] "c1" "load" "t0" (some [("shard", Val.n 3)]) = none ∧
    LogRelationalStart true [] "c1" "load" "t0" (some [("shard", Val.n 3)]) =
      LogRelationalStart true ["load"] "c1" "load" "t0" (some [("shard", Val.n 3)]) :=
  ⟨(relational_debug_gated [] ["load"] "c1" "load" "t0" [("shard", Val.n 3)]
      (by decide)).1.1,
   (relational_debug_gated [] ["load"] "c1" "load" "t0" [("shard", Val.n 3)]
      (by decide)).2.1.1⟩

/-- Claim C4 (counterexample): at a concrete input with a non-nil error,
the record `LogError` emits has no "reason" key at all — the error's message
is not stored under `reason` as the claim states. -/
theorem logError_reason_key_cex :
    ∃ r, LogError true [] "c" "E" (some "missing file") "t" none = Except.ok r ∧
      List.lookup "reason" r.fields = none :=
  ⟨_, rfl, by decide⟩

/-- Claim C4 (amended): for every input with a non-nil error whose extra
fields do not override the "status" or "error" keys, `LogError` emits one
ERROR record regardless of the debug flag and the de-duplication state, with
"status" = "error" and the error's message under the "error" key. -/
theorem logError_always_emits (dbg : Bool) (led : List String)
    (cid E msg now : String) (add : Fields)
    (hst : "status" ∉ add.map Prod.fst) (herr : "error" ∉ add.map Prod.fst) :
    ∃ r, LogError dbg led cid E (some msg) now (some add) = Except.ok r ∧
      r.level = LogLevel.error ∧
      List.lookup "status" r.fields = some (Val.s "error") ∧
      List.lookup "error" r.fields = some (Val.s msg) := by
  refine ⟨_, rfl, rfl, ?_, ?_⟩
  · rw [lookup_mergeFields_not_mem _ _ _ hst]
    simp [lookup_cons]
  · rw [lookup_mergeFields_not_mem _ _ _ herr]
    simp [lookup_cons]

/-- Witness for C4's amended theorem: concrete call with debug off. -/
theorem logError_always_emits_witness :
    ∃ r, LogError false [] "c" "E" (some "boom") "t"
        (some [("shard", Val.n 3)]) = Except.ok r ∧
      r.level = LogLevel.error ∧
      List.lookup "status" r.fields = some (Val.s "error") ∧
      List.lookup "error" r.fields = some (Val.s "boom") :=
  logError_always_emits false [] "c" "E" "boom" "t" [("shard", Val.n 3)]
    (by decide) (by decide)

/-- Claim C5: mergeFields leaves the base unchanged for an absent (nil) or
empty extension map, and otherwise the merged map is the union with the
extension's value winning on every key. -/
theorem mergeFields_spec (base add : Fields) (k : String)
    (hnd : (add.map Prod.fst).Nodup) :
    mergeFields base none = base ∧
    mergeFields base (some []) = base ∧
    List.lookup k (mergeFields base (some add)) =
      (List.lookup k add).orElse (fun _ => List.lookup k base) :=
  ⟨rfl, rfl, lookup_mergeFields base add k hnd⟩

/-- Witness for C5: base status "started" merged with extension status
"override" resolves to the extension's value. -/
theorem mergeFields_spec_witness :
    List.lookup "status"
        (mergeFields [("status", Val.s "started")]
          (some [("status", Val.s "override")])) =
      (List.lookup "status" [("status", Val.s "override")]).orElse
        (fun _ => List.lookup "status" [("status", Val.s "started")]) :=
  (mergeFields_spec [("status", Val.s "started")]
      [("status", Val.s "override")] "status" (by decide)).2.2

/-- Claim C6: a run of once-only calls none of which uses event `E2` never
marks `E2` seen, so the next once-only call with `E2` emits its record. -/
theorem distinct_events_no_suppression (E2 : String) (s : List String)
    (ops : List OnceOp) (op2 : OnceOp)
    (hops : ∀ op ∈ ops, opEvent op ≠ E2) (hs : E2 ∉ s)
    (h2 : opEvent op2 = E2) :
    (runOnce (runOps s ops).1 op2).2 = some (onceRecord op2) := by
  have hnm : E2 ∉ (runOps s ops).1 := not_mem_runOps_fst hs hops
  have hop2 : opEvent op2 ∉ (runOps s ops).1 := fun hm => hnm (h2 ▸ hm)
  rw [runOnce_unseen hop2]

/-- Witness for C6: a prior LogOnce with "cache-miss" does not suppress the
first LogSuccess with "cache-hit". -/
theorem distinct_events_no_suppression_witness :
    (runOnce (runOps [] [OnceOp.logOnce "cache-miss" none none "t1"]).1
        (OnceOp.logSuccess "cache-hit" none "t2")).2 =
      some (onceRecord (OnceOp.logSuccess "cache-hit" none "t2")) :=
  distinct_events_no_suppression "cache-hit" []
    [OnceOp.logOnce "cache-miss" none none "t1"]
    (OnceOp.logSuccess "cache-hit" none "t2")
    (by decide) (by decide) (by decide)

/-- Claim C9: all four once-only loggers share the one de-duplication set
keyed by event name alone: whichever of them first logs an event, any later
once-only call with the same event (through any of the four) is a no-op. -/
theorem shared_dedup_set (op1 op2 : OnceOp) (s : List String)
    (hsame : opEvent op2 = opEvent op1) (hs : opEvent op1 ∉ s) :
    (runOnce s op1).2 = some (onceRecord op1) ∧
    (runOnce (runOnce s op1).1 op2).2 = none := by
  constructor
  · rw [runOnce_unseen hs]
  · have hmem : opEvent op2 ∈ (runOnce s op1).1 := by
      rw [runOnce_unseen hs, hsame]
      exact List.mem_cons_self _ _
    rw [runOnce_seen hmem]

/-- Witness for C9: LogOnce("db-init") emits, then LogSuccessNew("db-init")
is suppressed by the shared set. -/
theorem shared_dedup_set_witness :
    (runOnce [] (OnceOp.logOnce "db-init" none none "t1")).2 =
      some (onceRecord (OnceOp.logOnce "db-init" none none "t1")) ∧
    (runOnce (runOnce [] (OnceOp.logOnce "db-init" none none "t1")).1
        (OnceOp.logSuccessNew "db-init" ⟨"", "", "", "", "", none⟩ "t2")).2 = none :=
  shared_dedup_set (OnceOp.logOnce "db-init" none none "t1")
    (OnceOp.logSuccessNew "db-init" ⟨"", "", "", "", "", none⟩ "t2")
    [] (by decide) (by decide)

/-- Claim C10 (counterexample): with a nil error and the same nonempty extra
map "k" = "v" on both sides, LogOnce emits the "k" field but LogOnceNew does
not — `mergeFieldsNew` discards the `WithField` chain — so the two emitted
field sets are not the same. -/
theorem logOnceNew_drops_extras_cex :
    (onceRecord (OnceOp.logOnce "E" none (some [("k", Val.s "v")]) "t")).fields ≠
      (onceRecord (OnceOp.logOnceNew "E" none
        ⟨"", "", "", "", "", some [("k", Val.s "v")]⟩ "t")).fields := by
  decide

/-- Claim C10 (amended): with a non-nil error (extra fields not using the
"error" key), LogOnce's emitted record carries the error message under
"error" while LogOnceNew's record has no "error" key whatever its struct
argument holds; with a nil error the two emit the same field set when the
extra-field maps are absent or empty — LogOnceNew drops its `Additional`
map entirely, so with nonempty extras the field sets differ even for a nil
error. -/
theorem logOnce_vs_logOnceNew (E msg now : String) (add emptyAdd : Option Fields)
    (f g : LogFields) (hne : "error" ∉ (add.getD []).map Prod.fst)
    (hempty : emptyAdd = none ∨ emptyAdd = some []) :
    List.lookup "error"
        (onceRecord (OnceOp.logOnce E (some msg) add now)).fields =
      some (Val.s msg) ∧
    List.lookup "error"
        (onceRecord (OnceOp.logOnceNew E (some msg) f now)).fields = none ∧
    onceRecord (OnceOp.logOnce E none emptyAdd now) =
      onceRecord (OnceOp.logOnceNew E none g now) := by
  refine ⟨?_, ?_, ?_⟩
  · cases add with
    | none => simp [onceRecord, onceBase, mergeFields, lookup_cons]
    | some l =>
        simp only [Option.getD] at hne
        show List.lookup "error"
            (mergeFields (onceBase E now (some msg)) (some l)) = some (Val.s msg)
        rw [lookup_mergeFields_not_mem _ _ _ hne]
        simp [onceBase, lookup_cons]
  · show List.lookup "error"
        (mergeFieldsNew [("event", Val.s E), ("timestamp", Val.s now)]
          f.Additional) = none
    rw [mergeFieldsNew_eq_base]
    simp [lookup_cons]
  · have hnew : onceRecord (OnceOp.logOnceNew E none g now) =
        ⟨"Event logged once", LogLevel.info,
          [("event", Val.s E), ("timestamp", Val.s now)]⟩ := by
      show (⟨"Event logged once", LogLevel.info,
        mergeFieldsNew [("event", Val.s E), ("timestamp", Val.s now)]
          g.Additional⟩ : Record) = _
      rw [mergeFieldsNew_eq_base]
    rcases hempty with h | h <;> subst h <;> rw [hnew] <;> rfl

/-- Witness for C10: concrete event, message and extra field "k" = "v" on
the non-nil side; nil-error equality at absent extras. -/
theorem logOnce_vs_logOnceNew_witness :
    List.lookup "error"
        (onceRecord (OnceOp.logOnce "E" (some "m")
          (some [("k", Val.s "v")]) "t")).fields = some (Val.s "m") ∧
    List.lookup "error"
        (onceRecord (OnceOp.logOnceNew "E" (some "m")
          ⟨"", "", "", "", "", some [("k", Val.s "v")]⟩ "t")).fields = none ∧
    onceRecord (OnceOp.logOnce "E" none none "t") =
      onceRecord (OnceOp.logOnceNew "E" none
        ⟨"", "", "", "", "", none⟩ "t") :=
  logOnce_vs_logOnceNew "E" "m" "t" (some [("k", Val.s "v")]) none
    ⟨"", "", "", "", "", some [("k", Val.s "v")]⟩ ⟨"", "", "", "", "", none⟩
    (by decide) (Or.inl rfl)

end Logutil

namespace Response

/-- Claim C7: RespondWithError with statusCode 404, message "not found",
err "missing", traceID "abc123" first sets Content-Type: application/json,
then writes status 404, then writes the JSON body
with error.code 404, error.reason "missing", error.message "not found",
error.error_code "abc123" (followed by the encoder's newline). -/
theorem respondWithError_spec :
    RespondWithError 404 "not found" (some "missing") "abc123" =
      Except.ok
        [WEvent.setHeader "Content-Type" "application/json",
         WEvent.writeHeader 404,
         WEvent.write
           "\x7b\"error\":\x7b\"code\":404,\"reason\":\"missing\",\"message\":\"not found\",\"error_code\":\"abc123\"\x7d\x7d\n"] := by
  rfl

end Response

namespace Utils

/-- Claim C8: GetHomeDir returns the working directory on success with no
diagnostic; on failure it prints "could not get home directory" and returns
the empty string; its return type propagates no error in either case. -/
theorem getHomeDir_spec (r : Except Unit String) :
    (∀ d, r = Except.ok d → GetHomeDir r = (d, [])) ∧
    (r = Except.error () → GetHomeDir r = ("", ["could not get home directory"])) := by
  constructor
  · intro d hd
    subst hd
    rfl
  · intro hd
    subst hd
    rfl

/-- Witness for C8: a successful getwd returning "/srv/app". -/
theorem getHomeDir_spec_witness :
    GetHomeDir (Except.ok "/srv/app") = ("/srv/app", []) :=
  (getHomeDir_spec (Except.ok "/srv/app")).1 "/srv/app" rfl

end Utils
